import Mathlib

/-!
Verification of the Cedar FFI front-end (`cedar-policy/src/frontend/is_authorized.rs`)
and the evaluator error taxonomy (`cedar-policy-core/src/evaluator/err.rs`).

The front-end and the error taxonomy are translated directly from the source.
External collaborators of the front-end that are not part of these two files
(the JSON deserialization layer of serde, the policy parser, the authorizer,
and the `InterfaceResult` type of `frontend/utils.rs`) are modelled from the
specification; each such definition carries a doc comment saying so.
-/

set_option maxRecDepth 20000

/-! ## JSON values

A JSON document.  Objects keep their key-value pairs as a list in input
order, so duplicate keys are representable (the deserialization layer is
what rejects them). -/

inductive Json where
  | null : Json
  | bool (b : Bool) : Json
  | num (n : Int) : Json
  | str (s : String) : Json
  | arr (elts : List Json) : Json
  | obj (fields : List (String × Json)) : Json
deriving Repr

/-- Boolean no-duplicates test on a list of keys. -/
def nodupB : List String → Bool
  | [] => true
  | x :: xs => !(xs.contains x) && nodupB xs

theorem nodupB_iff (l : List String) : nodupB l = true ↔ l.Nodup := by
  induction l with
  | nil => simp [nodupB]
  | cons x xs ih =>
    simp [nodupB, List.nodup_cons, ih, List.elem_iff]

mutual

/-- `JsonValueWithNoDuplicateKeys` check: no object anywhere in the value
has a repeated key.  Modelled from the spec: the type
`cedar_policy_core::jsonvalue::JsonValueWithNoDuplicateKeys` is not under
`src/`; its deserializer rejects duplicate keys at any depth. -/
def Json.noDupDeep : Json → Bool
  | .null => true
  | .bool _ => true
  | .num _ => true
  | .str _ => true
  | .arr elts => noDupDeepList elts
  | .obj fields => nodupB (fields.map (fun p => p.1)) && noDupDeepFields fields

/-- `Json.noDupDeep` on every element of a list. -/
def noDupDeepList : List Json → Bool
  | [] => true
  | x :: xs => x.noDupDeep && noDupDeepList xs

/-- `Json.noDupDeep` on every value of an object's field list. -/
def noDupDeepFields : List (String × Json) → Bool
  | [] => true
  | p :: xs => p.2.noDupDeep && noDupDeepFields xs

end

/-- First value bound to key `k` in an object's field list (what serde's
map visitor sees first). -/
def getField (fields : List (String × Json)) (k : String) : Option Json :=
  (fields.find? (fun p => p.1 = k)).map (fun p => p.2)

/-! ## JSON text

Modelled from the spec: `serde_json`'s syntax layer is an external crate
("the JSON request/entity deserialization layer" is out of scope, §1); we
model it with a small fuel-bounded recursive-descent reader sufficient for
well-formed documents without string escapes. -/

/-- Drop leading JSON whitespace. -/
def skipWs : List Char → List Char
  | [] => []
  | c :: cs => if c = ' ' ∨ c = '\n' ∨ c = '\t' ∨ c = '\r' then skipWs cs else c :: cs

/-- Read the body of a string literal up to the closing quote. -/
def strChars : List Char → Option (List Char × List Char)
  | [] => none
  | c :: cs =>
    if c = '"' then some ([], cs)
    else match strChars cs with
      | none => none
      | some (s, r) => some (c :: s, r)

/-- Split a leading run of decimal digits. -/
def digitSpan : List Char → List Char × List Char
  | [] => ([], [])
  | c :: cs =>
    if c.isDigit then
      let (d, r) := digitSpan cs
      (c :: d, r)
    else ([], c :: cs)

/-- Decimal digits to a natural number. -/
def digitsToNat (ds : List Char) : Nat :=
  ds.foldl (fun n c => n * 10 + (c.toNat - 48)) 0

/-- Match an exact run of characters. -/
def expectChars : List Char → List Char → Option (List Char)
  | [], cs => some cs
  | _ :: _, [] => none
  | p :: ps, c :: cs => if p = c then expectChars ps cs else none

mutual

/-- Read one JSON value. -/
def parseVal : Nat → List Char → Option (Json × List Char)
  | 0, _ => none
  | fuel + 1, cs =>
    match skipWs cs with
    | [] => none
    | c :: rest =>
      if c = 'n' then (expectChars ['u', 'l', 'l'] rest).map (fun r => (Json.null, r))
      else if c = 't' then (expectChars ['r', 'u', 'e'] rest).map (fun r => (Json.bool true, r))
      else if c = 'f' then (expectChars ['a', 'l', 's', 'e'] rest).map (fun r => (Json.bool false, r))
      else if c = '"' then (strChars rest).map (fun p => (Json.str ⟨p.1⟩, p.2))
      else if c = '-' then
        match digitSpan rest with
        | ([], _) => none
        | (ds, r) => some (Json.num (-(digitsToNat ds : Int)), r)
      else if c.isDigit then
        let (ds, r) := digitSpan (c :: rest)
        some (Json.num (digitsToNat ds : Int), r)
      else if c = '[' then
        match skipWs rest with
        | ']' :: r => some (Json.arr [], r)
        | cs' => (parseElems fuel cs').map (fun p => (Json.arr p.1, p.2))
      else if c = '\x7b' then
        match skipWs rest with
        | '\x7d' :: r => some (Json.obj [], r)
        | cs' => (parseMembers fuel cs').map (fun p => (Json.obj p.1, p.2))
      else none

/-- Read comma-separated array elements and the closing bracket. -/
def parseElems : Nat → List Char → Option (List Json × List Char)
  | 0, _ => none
  | fuel + 1, cs =>
    match parseVal fuel cs with
    | none => none
    | some (v, r) =>
      match skipWs r with
      | ',' :: r2 => (parseElems fuel r2).map (fun p => (v :: p.1, p.2))
      | ']' :: r2 => some ([v], r2)
      | _ => none

/-- Read comma-separated `"key": value` members and the closing brace. -/
def parseMembers : Nat → List Char → Option (List (String × Json) × List Char)
  | 0, _ => none
  | fuel + 1, cs =>
    match skipWs cs with
    | '"' :: r =>
      match strChars r with
      | none => none
      | some (k, r1) =>
        match skipWs r1 with
        | ':' :: r2 =>
          match parseVal fuel r2 with
          | none => none
          | some (v, r3) =>
            match skipWs r3 with
            | ',' :: r4 => (parseMembers fuel r4).map (fun p => ((⟨k⟩, v) :: p.1, p.2))
            | '\x7d' :: r4 => some ([(⟨k⟩, v)], r4)
            | _ => none
        | _ => none
    | _ => none

end

/-- Read a whole document: one value and nothing but whitespace after it. -/
def parseJsonStr (s : String) : Option Json :=
  match parseVal (s.length + 2) s.data with
  | none => none
  | some (j, r) => if skipWs r = [] then some j else none

/-! ## The Cedar AST types the error taxonomy mentions

Modelled from the spec (§3): `cedar-policy-core/src/ast` is not under
`src/`; the error taxonomy only stores these values, it never computes
with them. -/

/-- Rust `Integer` is `i64`; the error type only stores the constant. -/
abbrev Integer := Int

/-- Entity UID: pair of type name and entity id (§3). -/
structure EntityUid where
  ty : String
  eid : String
deriving DecidableEq, Repr

/-- Template slot identifiers. -/
inductive SlotId where
  | principal : SlotId
  | resource : SlotId
deriving DecidableEq, Repr

/-- Namespaced name of an extension function. -/
structure Name where
  id : String
deriving DecidableEq, Repr

/-- Type tags, used solely for error reporting (§3). -/
inductive CedarType where
  | Bool : CedarType
  | Long : CedarType
  | String : CedarType
  | Entity (type_name : String) : CedarType
  | Set : CedarType
  | Record : CedarType
  | Extension (name : Name) : CedarType
deriving DecidableEq, Repr

/-- Binary operators of the expression AST (§3). -/
inductive BinaryOp where
  | Add : BinaryOp
  | Sub : BinaryOp
  | Eq : BinaryOp
  | Less : BinaryOp
  | LessEq : BinaryOp
  | In : BinaryOp
  | Contains : BinaryOp
  | ContainsAll : BinaryOp
  | ContainsAny : BinaryOp
deriving DecidableEq, Repr

/-- Unary operators of the expression AST (§3). -/
inductive UnaryOp where
  | Not : UnaryOp
  | Neg : UnaryOp
deriving DecidableEq, Repr

/-- Runtime values (§3): tagged union of scalars, entity UIDs, sets,
records and extension values. -/
inductive Value where
  | bool (b : Bool) : Value
  | long (i : Integer) : Value
  | string (s : String) : Value
  | entityUid (uid : EntityUid) : Value
  | set (elts : List Value) : Value
  | record (fields : List (String × Value)) : Value
  | ext (name : Name) (payload : String) : Value

/-- Request variables. -/
inductive Var where
  | principal : Var
  | action : Var
  | resource : Var
  | context : Var
deriving DecidableEq, Repr

/-- Expression AST (§3, abridged to the shape the error taxonomy stores). -/
inductive Expr where
  | lit (v : Value) : Expr
  | var (v : Var) : Expr
  | slot (s : SlotId) : Expr
  | unknown (name : String) : Expr
  | ite (c t e : Expr) : Expr
  | and (a b : Expr) : Expr
  | or (a b : Expr) : Expr
  | unaryApp (op : UnaryOp) (a : Expr) : Expr
  | binaryApp (op : BinaryOp) (a b : Expr) : Expr
  | mulByConst (a : Expr) (c : Integer) : Expr
  | hasAttr (e : Expr) (attr : String) : Expr
  | getAttr (e : Expr) (attr : String) : Expr
  | like (e : Expr) (pat : String) : Expr
  | set (elts : List Expr) : Expr
  | record (fields : List (String × Expr)) : Expr
  | call (fn : Name) (args : List Expr) : Expr

/-- A non-empty list, as `nonempty::NonEmpty`. -/
structure NonemptyList (α : Type) where
  head : α
  tail : List α

/-! ## `cedar-policy-core/src/evaluator/err.rs` -/

/-- `IntegerOverflowError` (err.rs lines 327-357): overflow during a
binary operation (both operands runtime `Value`s), a multiplication (the
second operand is a compile-time `Integer` constant of the policy), or a
unary operation. -/
inductive IntegerOverflowError where
  | BinaryOp (op : BinaryOp) (arg1 : Value) (arg2 : Value) : IntegerOverflowError
  | Multiplication (arg : Value) (constant : Integer) : IntegerOverflowError
  | UnaryOp (op : UnaryOp) (arg : Value) : IntegerOverflowError

/-- Modelled from the spec: `extensions::ExtensionFunctionLookupError` is
not under `src/`; the taxonomy forwards to it transparently, so we keep
its message and optional diagnostic help. -/
structure ExtensionFunctionLookupError where
  msg : String
  helpText : Option String

/-- Modelled from the spec: `RestrictedExprError` is not under `src/`;
the taxonomy forwards to it transparently. -/
structure RestrictedExprError where
  msg : String
  helpText : Option String

/-- `EvaluationErrorKind` (err.rs lines 226-313). -/
inductive EvaluationErrorKind where
  | EntityDoesNotExist (euid : EntityUid) : EvaluationErrorKind
  | EntityAttrDoesNotExist (entity : EntityUid) (attr : String) : EvaluationErrorKind
  | UnspecifiedEntityAccess (attr : String) : EvaluationErrorKind
  | RecordAttrDoesNotExist (attr : String) (alternatives : List String) : EvaluationErrorKind
  | FailedExtensionFunctionLookup (err : ExtensionFunctionLookupError) : EvaluationErrorKind
  | TypeError (expected : NonemptyList CedarType) (actual : CedarType) : EvaluationErrorKind
  | WrongNumArguments (function_name : Name) (expected : Nat) (actual : Nat) : EvaluationErrorKind
  | IntegerOverflow (err : IntegerOverflowError) : EvaluationErrorKind
  | InvalidRestrictedExpression (err : RestrictedExprError) : EvaluationErrorKind
  | UnlinkedSlot (id : SlotId) : EvaluationErrorKind
  | FailedExtensionFunctionApplication (extension_name : Name) (msg : String) : EvaluationErrorKind
  | NonValue (e : Expr) : EvaluationErrorKind
  | RecursionLimit : EvaluationErrorKind

/-- Debug rendering of the `alternatives` vector, as in the
`available attributes: {1:?}` help of `RecordAttrDoesNotExist`. -/
def debugStringList (l : List String) : String :=
  "[" ++ String.intercalate ", " (l.map (fun s => "\"" ++ s ++ "\"")) ++ "]"

/-- The `help()` each kind contributes: `RecordAttrDoesNotExist` has a
`#[diagnostic(help(...))]` attribute; the three `transparent` kinds
forward to the wrapped error (`IntegerOverflowError` derives no help);
the rest have none. -/
def EvaluationErrorKind.help : EvaluationErrorKind → Option String
  | .RecordAttrDoesNotExist _ alternatives => some ("available attributes: " ++ debugStringList alternatives)
  | .FailedExtensionFunctionLookup err => err.helpText
  | .InvalidRestrictedExpression err => err.helpText
  | _ => none

/-- `EvaluationError` (err.rs lines 26-33): a kind plus optional advice. -/
structure EvaluationError where
  error_kind : EvaluationErrorKind
  advice : Option String

/-- `Diagnostic::help` for `EvaluationError` (err.rs lines 38-45). -/
def EvaluationError.help (e : EvaluationError) : Option String :=
  match e.error_kind.help, e.advice with
  | some help, none => some help
  | none, some advice => some advice
  | some help, some advice => some (help ++ "; " ++ advice)
  | none, none => none

/-- `EvaluationError::entity_does_not_exist` (err.rs 88-93). -/
def EvaluationError.entity_does_not_exist (euid : EntityUid) : EvaluationError :=
  { error_kind := .EntityDoesNotExist euid, advice := none }

/-- `EvaluationError::entity_attr_does_not_exist` (err.rs 96-101). -/
def EvaluationError.entity_attr_does_not_exist (entity : EntityUid) (attr : String) : EvaluationError :=
  { error_kind := .EntityAttrDoesNotExist entity attr, advice := none }

/-- `EvaluationError::unspecified_entity_access` (err.rs 104-109). -/
def EvaluationError.unspecified_entity_access (attr : String) : EvaluationError :=
  { error_kind := .UnspecifiedEntityAccess attr, advice := none }

/-- `EvaluationError::record_attr_does_not_exist` (err.rs 112-117). -/
def EvaluationError.record_attr_does_not_exist (attr : String) (alternatives : List String) : EvaluationError :=
  { error_kind := .RecordAttrDoesNotExist attr alternatives, advice := none }

/-- `EvaluationError::type_error` (err.rs 120-125). -/
def EvaluationError.type_error (expected : NonemptyList CedarType) (actual : CedarType) : EvaluationError :=
  { error_kind := .TypeError expected actual, advice := none }

/-- `EvaluationError::type_error_single` (err.rs 127-129). -/
def EvaluationError.type_error_single (expected : CedarType) (actual : CedarType) : EvaluationError :=
  EvaluationError.type_error ⟨expected, []⟩ actual

/-- `EvaluationError::type_error_with_advice` (err.rs 132-141). -/
def EvaluationError.type_error_with_advice (expected : NonemptyList CedarType) (actual : CedarType)
    (advice : String) : EvaluationError :=
  { error_kind := .TypeError expected actual, advice := some advice }

/-- `EvaluationError::type_error_with_advice_single` (err.rs 143-149). -/
def EvaluationError.type_error_with_advice_single (expected : CedarType) (actual : CedarType)
    (advice : String) : EvaluationError :=
  EvaluationError.type_error_with_advice ⟨expected, []⟩ actual advice

/-- `EvaluationError::wrong_num_arguments` (err.rs 152-161). -/
def EvaluationError.wrong_num_arguments (function_name : Name) (expected : Nat) (actual : Nat) : EvaluationError :=
  { error_kind := .WrongNumArguments function_name expected actual, advice := none }

/-- `EvaluationError::unlinked_slot` (err.rs 164-169). -/
def EvaluationError.unlinked_slot (id : SlotId) : EvaluationError :=
  { error_kind := .UnlinkedSlot id, advice := none }

/-- `EvaluationError::failed_extension_function_application` (err.rs 172-180). -/
def EvaluationError.failed_extension_function_application (extension_name : Name) (msg : String) : EvaluationError :=
  { error_kind := .FailedExtensionFunctionApplication extension_name msg, advice := none }

/-- `EvaluationError::non_value` (err.rs 182-188): the only constructor
that supplies its own advice. -/
def EvaluationError.non_value (e : Expr) : EvaluationError :=
  { error_kind := .NonValue e, advice := some "consider using the partial evaluation APIs" }

/-- `EvaluationError::recursion_limit` (err.rs 191-196). -/
def EvaluationError.recursion_limit : EvaluationError :=
  { error_kind := .RecursionLimit, advice := none }

/-- `From<ExtensionFunctionLookupError> for EvaluationError` (err.rs 199-206). -/
def EvaluationError.from_extension_function_lookup_error (err : ExtensionFunctionLookupError) : EvaluationError :=
  { error_kind := .FailedExtensionFunctionLookup err, advice := none }

/-- `From<IntegerOverflowError> for EvaluationError` (err.rs 208-215). -/
def EvaluationError.from_integer_overflow_error (err : IntegerOverflowError) : EvaluationError :=
  { error_kind := .IntegerOverflow err, advice := none }

/-- `From<RestrictedExprError> for EvaluationError` (err.rs 217-224). -/
def EvaluationError.from_restricted_expr_error (err : RestrictedExprError) : EvaluationError :=
  { error_kind := .InvalidRestrictedExpression err, advice := none }

/-! ## External collaborators of the front-end

`cedar-policy/src/frontend/is_authorized.rs` uses the crate's `api` layer
(uids, schemas, contexts, requests, policy sets, entities, the authorizer)
and `frontend/utils.rs`.  None of those are under `src/`; each definition
below is modelled from the spec (and from how `src/` calls and tests it). -/

/-- Modelled from the spec: a parsed `Schema` (schema contents are out of
scope, §1: "validation/schema checks of requests"). -/
structure Schema where
  json : Json
deriving Repr

/-- Modelled from the spec: `Schema::from_json_value`; schema parsing is
out of scope, so any JSON value is accepted. -/
def Schema.from_json_value (v : Json) : Except String Schema :=
  .ok ⟨v⟩

/-- Read a `(type, id)` pair out of an entity-uid JSON object. -/
def uidOfTypeAndId (fields : List (String × Json)) : Except String EntityUid :=
  match getField fields "type", getField fields "id" with
  | some (.str ty), some (.str eid) => .ok ⟨ty, eid⟩
  | _, _ => .error "expected a `type` and `id` field"

/-- Modelled from the spec: `EntityUid::from_json` (the JSON entity
deserialization layer is out of scope, §1).  Accepts the explicit
`(type, id)` object form, with or without the `__entity` escape. -/
def EntityUid.from_json : Json → Except String EntityUid
  | .obj fields =>
    match getField fields "__entity" with
    | some (.obj inner) => uidOfTypeAndId inner
    | some _ => .error "expected an object in the `__entity` escape"
    | none => uidOfTypeAndId fields
  | _ => .error "expected a JSON object for an entity uid"

/-- Request context: a record of attribute values (§3). -/
structure Context where
  fields : List (String × Json)
deriving Repr

/-- Modelled from the spec: `Context::from_json_value`; the context must
be a JSON record (restricted evaluation of its values is out of scope). -/
def Context.from_json_value (j : Json) (_schema : Option (Schema × EntityUid)) : Except String Context :=
  match j with
  | .obj fs => .ok ⟨fs⟩
  | _ => .error "expression is not a record"

/-- Request (§3): optional principal/action/resource plus context. -/
structure Request where
  principal : Option EntityUid
  action : Option EntityUid
  resource : Option EntityUid
  context : Context
deriving Repr

/-- Modelled from the spec: `Request::new` — "Missing optional fields are
permitted" (§6); request validation against a schema is out of scope. -/
def Request.new (principal : Option EntityUid) (action : Option EntityUid)
    (resource : Option EntityUid) (context : Context) (_schema : Option Schema) :
    Except String Request :=
  .ok ⟨principal, action, resource, context⟩

/-- A static policy: id and source text. -/
structure Policy where
  id : String
  src : String
deriving DecidableEq, Repr

/-- Modelled from the spec: `Policy::parse` — the policy parser is out of
scope (§1), so the text is kept opaque; a missing id defaults to
`policy0` per the source's doc comment on id auto-generation. -/
def Policy.parse (id : Option String) (src : String) : Except (List String) Policy :=
  .ok ⟨id.getD "policy0", src⟩

/-- A policy template: id and source text. -/
structure Template where
  id : String
  src : String
deriving DecidableEq, Repr

/-- Modelled from the spec: `Template::parse`, like `Policy::parse`. -/
def Template.parse (id : Option String) (src : String) : Except (List String) Template :=
  .ok ⟨id.getD "policy0", src⟩

/-- Modelled from the spec: a `PolicySet` holds static policies,
templates and template-linked policies, with one shared id space
("A set of (id, effect, scope, condition) with unique ids", §6). -/
structure PolicySet where
  statics : List (String × String)
  templates : List (String × String)
  links : List String
deriving DecidableEq, Repr

/-- `PolicySet::new`. -/
def PolicySet.new : PolicySet := ⟨[], [], []⟩

/-- Every id present in the set (static, template or link). -/
def PolicySet.allIds (ps : PolicySet) : List String :=
  ps.statics.map (fun p => p.1) ++ ps.templates.map (fun p => p.1) ++ ps.links

/-- Modelled from the spec: `PolicySet::add` fails on a duplicate id
(duplicate ids are an input error, §4.7; message from the src test
`test_authorized_fails_on_policy_collision_with_template`). -/
def PolicySet.add (ps : PolicySet) (p : Policy) : Except String PolicySet :=
  if p.id ∈ ps.allIds then
    .error ("duplicate template or policy id `" ++ p.id ++ "`")
  else
    .ok { ps with statics := ps.statics ++ [(p.id, p.src)] }

/-- Modelled from the spec: `PolicySet::add_template`, like `add`. -/
def PolicySet.add_template (ps : PolicySet) (t : Template) : Except String PolicySet :=
  if t.id ∈ ps.allIds then
    .error ("duplicate template or policy id `" ++ t.id ++ "`")
  else
    .ok { ps with templates := ps.templates ++ [(t.id, t.src)] }

/-- Modelled from the spec: `PolicySet::link` — looks the template up,
then refuses a link whose new id collides with any existing policy id
(S7; message from the src test
`test_authorized_fails_on_template_instantiation_collision_with_policy`). -/
def PolicySet.link (ps : PolicySet) (template_id : String) (instance_id : String)
    (_vals : List (SlotId × EntityUid)) : Except String PolicySet :=
  if (ps.templates.map (fun p => p.1)).contains template_id then
    if instance_id ∈ ps.allIds then
      .error ("unable to link template: template-linked policy id `" ++ instance_id ++
        "` conflicts with an existing policy id")
    else
      .ok { ps with links := ps.links ++ [instance_id] }
  else
    .error ("unable to link template: no such template `" ++ template_id ++ "`")

/-- Modelled from the spec: `PolicySet::from_str` parses a concatenation
of policies with auto-generated ids `policyX` (src doc comment); the
policy grammar itself is out of scope, so the nonempty text is kept as
one opaque policy `policy0`. -/
def PolicySet.from_str (s : String) : Except (List String) PolicySet :=
  if s = "" then .ok PolicySet.new else .ok ⟨[("policy0", s)], [], []⟩

/-- Modelled from the spec: the entity store, reduced to the uids it
holds (attributes and hierarchy are the evaluator's concern, §4.2). -/
structure Entities where
  uids : List EntityUid
deriving DecidableEq, Repr

/-- `Entities::empty`. -/
def Entities.empty : Entities := ⟨[]⟩

/-- Parse the uid of each entity object, refusing duplicates
("Duplicate uids in the input are a construction-time error", §6). -/
def entityUidsFromList : List Json → Except String (List EntityUid)
  | [] => .ok []
  | e :: rest =>
    match e with
    | .obj fs =>
      match getField fs "uid" with
      | none => .error "missing field `uid` in entity"
      | some u =>
        match EntityUid.from_json u with
        | .error er => .error er
        | .ok uid =>
          match entityUidsFromList rest with
          | .error er => .error er
          | .ok uids =>
            if uid ∈ uids then
              .error ("duplicate entity entry `" ++ uid.ty ++ "::\"" ++ uid.eid ++ "\"`")
            else .ok (uid :: uids)
    | _ => .error "expected an entity object"

/-- Modelled from the spec: `Entities::from_json_value` — the input is a
list of entity objects in natural JSON form (§6). -/
def Entities.from_json_value (j : Json) (_schema : Option Schema) : Except String Entities :=
  match j with
  | .arr elems =>
    match entityUidsFromList elems with
    | .error e => .error e
    | .ok uids => .ok ⟨uids⟩
  | _ => .error "expected a list of entity objects"

/-! ## `cedar-policy/src/frontend/is_authorized.rs` — data types -/

/-- `EntityUIDStrings` (is_authorized.rs 220-224): entity uid as strings. -/
structure EntityUIDStrings where
  ty : String
  eid : String
deriving DecidableEq, Repr

/-- `Link` (is_authorized.rs 226-230): one slot instantiation. -/
structure Link where
  slot : String
  value : EntityUIDStrings
deriving DecidableEq, Repr

/-- `DuplicateLinkError` (is_authorized.rs 250-256). -/
inductive DuplicateLinkError where
  | Duplicates (slots : List String) : DuplicateLinkError
deriving DecidableEq, Repr

/-- The `Display` message of `DuplicateLinkError`. -/
def DuplicateLinkError.toMessage : DuplicateLinkError → String
  | .Duplicates slots =>
    "duplicate instantiations of the slot(s): " ++
      String.intercalate ", " (slots.map (fun s => "`" ++ s ++ "`"))

/-- `itertools::dedup_with_count`: run-length encode consecutive equal
elements. -/
def dedupWithCount : List String → List (Nat × String)
  | [] => []
  | x :: xs =>
    match dedupWithCount xs with
    | [] => [(1, x)]
    | (n, y) :: rest => if x = y then (n + 1, y) :: rest else (1, x) :: (n, y) :: rest

/-- `Links` (is_authorized.rs 245-248): a list of links, deserialized
through `TryFrom<Vec<Link>>`. -/
structure Links where
  links : List Link
deriving DecidableEq, Repr

/-- The `filter_map` of `Links::try_from`: of the run-length groups keep
the slots whose count is not 1. -/
def dupsOf (l : List String) : List String :=
  (dedupWithCount l).filterMap (fun p => if p.1 = 1 then none else some p.2)

/-- `TryFrom<Vec<Link>> for Links` (is_authorized.rs 258-276): sort the
slot names, run-length encode, keep the slots whose count is not 1; fail
with them if any, otherwise keep the link list unchanged. -/
def Links.try_from (links : List Link) : Except DuplicateLinkError Links :=
  let slots := List.insertionSort (fun a b : String => a ≤ b) (links.map (fun l => l.slot))
  let duplicates := dupsOf slots
  if duplicates.isEmpty then .ok ⟨links⟩ else .error (.Duplicates duplicates)

/-- `TemplateLink` (is_authorized.rs 232-243). -/
structure TemplateLink where
  template_id : String
  result_policy_id : String
  instantiations : Links
deriving DecidableEq, Repr

/-- `PolicySpecification` (frontend/utils.rs, used at is_authorized.rs
288): either one concatenated string of policies or a map of single
policies.  Modelled from the spec and the src doc comment (61-60). -/
inductive PolicySpecification where
  | Concatenated (policies : String) : PolicySpecification
  | Map (policies : List (String × String)) : PolicySpecification
deriving DecidableEq, Repr

/-- `RecvdSlice` (is_authorized.rs 285-301). -/
structure RecvdSlice where
  policies : PolicySpecification
  entities : Json
  templates : Option (List (String × String))
  template_instantiations : Option (List TemplateLink)
deriving Repr

/-- `AuthorizationCall` (is_authorized.rs 145-166).  `principal`,
`resource` and `schema` are optional, `action`, `context` and `slice` are
not; `enable_request_validation` defaults to `true`. -/
structure AuthorizationCall where
  principal : Option Json
  action : Json
  resource : Option Json
  context : List (String × Json)
  schema : Option Json
  enable_request_validation : Bool
  slice : RecvdSlice
deriving Repr

/-- `Decision`. -/
inductive Decision where
  | Allow : Decision
  | Deny : Decision
deriving DecidableEq, Repr

/-- Modelled from the spec (§6): the authorizer's `Response` — decision,
reason (ids of the determining policies) and error strings. -/
structure Response where
  decision : Decision
  reason : List String
  errors : List String
deriving DecidableEq, Repr

/-- `InterfaceDiagnostics` (is_authorized.rs 83-90); the hash sets are
modelled as lists. -/
structure InterfaceDiagnostics where
  reason : List String
  errors : List String
deriving DecidableEq, Repr

/-- `InterfaceResponse` (is_authorized.rs 74-80). -/
structure InterfaceResponse where
  decision : Decision
  diagnostics : InterfaceDiagnostics
deriving DecidableEq, Repr

/-- `From<Response> for InterfaceResponse` (is_authorized.rs 112-124):
keep the decision, carry the reason ids and the error strings into the
diagnostics. -/
def InterfaceResponse.from_response (r : Response) : InterfaceResponse :=
  ⟨r.decision, ⟨r.reason, r.errors⟩⟩

/-- `AuthorizationAnswer` (is_authorized.rs 138-143). -/
inductive AuthorizationAnswer where
  | ParseFailed (errors : List String) : AuthorizationAnswer
  | Success (response : InterfaceResponse) : AuthorizationAnswer
deriving DecidableEq, Repr

/-- `InterfaceResult` (frontend/utils.rs, not under `src/`).  Modelled
from the spec's adapter contract (§7) and the src tests: a success
carries the serialized answer (kept structured here); a failure carries
`is_internal` (`true` for `fail_internally`, `false` for
`fail_bad_request`, the boolean the src tests pass to
`assert_is_failure`) and the error messages. -/
inductive InterfaceResult where
  | success (result : AuthorizationAnswer) : InterfaceResult
  | failure (is_internal : Bool) (errors : List String) : InterfaceResult
deriving DecidableEq, Repr

/-- `InterfaceResult::succeed`. -/
def InterfaceResult.succeed (answer : AuthorizationAnswer) : InterfaceResult :=
  .success answer

/-- `InterfaceResult::fail_internally`: an internal failure. -/
def InterfaceResult.fail_internally (msg : String) : InterfaceResult :=
  .failure true [msg]

/-- `InterfaceResult::fail_bad_request`: a "bad request" failure. -/
def InterfaceResult.fail_bad_request (errors : List String) : InterfaceResult :=
  .failure false errors

/-- Is this result a success? -/
def InterfaceResult.isSuccess : InterfaceResult → Bool
  | .success _ => true
  | .failure _ _ => false

/-- Is this result a "bad request" failure? -/
def InterfaceResult.isBadRequest : InterfaceResult → Bool
  | .failure false _ => true
  | _ => false

/-- Is this result an internal failure? -/
def InterfaceResult.isInternalFailure : InterfaceResult → Bool
  | .failure true _ => true
  | _ => false

/-! ## `is_authorized.rs` — functions -/

/-- `parse_instantiation` (is_authorized.rs 303-325): the slot must be
`?principal` or `?resource` (typo "must by" kept from the source); type
name and entity id parsing are out of scope and modelled as accepting
(`EntityId::from_str` is infallible in the source). -/
def parse_instantiation (v : Link) : Except (List String) (SlotId × EntityUid) :=
  if v.slot = "?principal" then .ok (.principal, ⟨v.value.ty, v.value.eid⟩)
  else if v.slot = "?resource" then .ok (.resource, ⟨v.value.ty, v.value.eid⟩)
  else .error ["Slot must by \"?principal\" or \"?resource\""]

/-- `HashMap::insert`: a later binding of the same slot replaces the
earlier one. -/
def slotInsert (m : List (SlotId × EntityUid)) (k : SlotId) (u : EntityUid) :
    List (SlotId × EntityUid) :=
  if (m.map (fun p => p.1)).contains k then
    m.map (fun p => if p.1 = k then (k, u) else p)
  else m ++ [(k, u)]

/-- The `for i in instantiation.instantiations.0` loop of
`parse_instantiations`: the first bad slot aborts. -/
def buildVals (m : List (SlotId × EntityUid)) : List Link → Except (List String) (List (SlotId × EntityUid))
  | [] => .ok m
  | l :: rest =>
    match parse_instantiation l with
    | .error e => .error e
    | .ok su => buildVals (slotInsert m su.1 su.2) rest

/-- `parse_instantiations` (is_authorized.rs 327-353).  `PolicyId::from_str`
never fails (any string is a policy id), so the id branches collapse;
a link failure is wrapped as "Error instantiating template: ...". -/
def parse_instantiations (policies : PolicySet) (instantiation : TemplateLink) :
    Except (List String) PolicySet :=
  match buildVals [] instantiation.instantiations.links with
  | .error e => .error e
  | .ok vals =>
    match policies.link instantiation.template_id instantiation.result_policy_id vals with
    | .ok ps => .ok ps
    | .error e => .error ["Error instantiating template: " ++ e]

/-- The policies loop of `parse_policy_set_from_individual_policies`
(is_authorized.rs 424-437). -/
def addPolicies (ps : PolicySet) (errs : List String) :
    List (String × String) → PolicySet × List String
  | [] => (ps, errs)
  | (id, policy_src) :: rest =>
    match Policy.parse (some id) policy_src with
    | .ok p =>
      match ps.add p with
      | .ok ps' => addPolicies ps' errs rest
      | .error err => addPolicies ps (errs ++ ["couldn't add policy to set due to error: " ++ err]) rest
    | .error pes => addPolicies ps (errs ++ ["couldn't parse policy with id `" ++ id ++ "`"] ++ pes) rest

/-- The templates loop of `parse_policy_set_from_individual_policies`
(is_authorized.rs 439-454). -/
def addTemplates (ps : PolicySet) (errs : List String) :
    List (String × String) → PolicySet × List String
  | [] => (ps, errs)
  | (id, policy_src) :: rest =>
    match Template.parse (some id) policy_src with
    | .ok t =>
      match ps.add_template t with
      | .ok ps' => addTemplates ps' errs rest
      | .error err => addTemplates ps (errs ++ ["couldn't add policy to set due to error: " ++ err]) rest
    | .error pes => addTemplates ps (errs ++ ["couldn't parse policy with id `" ++ id ++ "`"] ++ pes) rest

/-- `parse_policy_set_from_individual_policies` (is_authorized.rs 418-461). -/
def parse_policy_set_from_individual_policies (policies : List (String × String))
    (templates : Option (List (String × String))) : Except (List String) PolicySet :=
  let pe := addPolicies PolicySet.new [] policies
  let pe :=
    match templates with
    | none => pe
    | some ts => addTemplates pe.1 pe.2 ts
  if pe.2.isEmpty then .ok pe.1 else .error pe.2

/-- The `policy_set` computation at the head of `RecvdSlice::try_into`
(is_authorized.rs 365-377). -/
def RecvdSlice.policySetResult (s : RecvdSlice) : Except (List String) PolicySet :=
  match s.policies with
  | .Concatenated policies =>
    match PolicySet.from_str policies with
    | .ok ps => .ok ps
    | .error parse_errors => .error ("couldn't parse concatenated policies string" :: parse_errors)
  | .Map policies => parse_policy_set_from_individual_policies policies s.templates

/-- The `template_instantiations` loop of `RecvdSlice::try_into`
(is_authorized.rs 401-408): link failures are collected, the loop goes
on, successful links update the set. -/
def instLoop (ps : PolicySet) (errs : List String) : List TemplateLink → PolicySet × List String
  | [] => (ps, errs)
  | tl :: rest =>
    match parse_instantiations ps tl with
    | .ok ps' => instLoop ps' errs rest
    | .error err => instLoop ps (errs ++ err) rest

/-- The tail of `RecvdSlice::try_into` (is_authorized.rs 401-415): run
the instantiation loop, then succeed only when no error was collected. -/
def tryIntoFinish (policies : PolicySet) (entities : Entities) (errs : List String)
    (ti : Option (List TemplateLink)) : Except (List String) (PolicySet × Entities) :=
  let pe :=
    match ti with
    | none => (policies, errs)
    | some l => instLoop policies errs l
  if pe.2.isEmpty then .ok (pe.1, entities) else .error pe.2

/-- `RecvdSlice::try_into` (is_authorized.rs 355-416).  On a policy or
entity parse failure the successfully parsed half is discarded
(`PolicySet::new()`, `Entities::empty()`) and the errors collected; the
instantiation loop then runs against whatever set survived. -/
def RecvdSlice.try_into (s : RecvdSlice) (schema : Option Schema) :
    Except (List String) (PolicySet × Entities) :=
  match Entities.from_json_value s.entities schema, s.policySetResult with
  | .ok entities, .ok policies => tryIntoFinish policies entities [] s.template_instantiations
  | .ok _, .error policy_parse_errors =>
    tryIntoFinish PolicySet.new Entities.empty policy_parse_errors s.template_instantiations
  | .error e, .ok _ =>
    tryIntoFinish PolicySet.new Entities.empty [e] s.template_instantiations
  | .error e, .error policy_parse_errors =>
    tryIntoFinish PolicySet.new Entities.empty (e :: policy_parse_errors) s.template_instantiations

/-- The schema stage of `get_components` (is_authorized.rs 174-178). -/
def schemaStage : Option Json → Except (List String) (Option Schema)
  | none => .ok none
  | some v =>
    match Schema.from_json_value v with
    | .ok s => .ok (some s)
    | .error e => .error [e]

/-- The principal stage of `get_components` (is_authorized.rs 179-185). -/
def principalStage : Option Json → Except (List String) (Option EntityUid)
  | none => .ok none
  | some p =>
    match EntityUid.from_json p with
    | .ok u => .ok (some u)
    | .error e => .error ["Failed to parse principal", e]

/-- The action stage of `get_components` (is_authorized.rs 186-187). -/
def actionStage (j : Json) : Except (List String) EntityUid :=
  match EntityUid.from_json j with
  | .ok u => .ok u
  | .error e => .error ["Failed to parse action", e]

/-- The resource stage of `get_components` (is_authorized.rs 188-194). -/
def resourceStage : Option Json → Except (List String) (Option EntityUid)
  | none => .ok none
  | some r =>
    match EntityUid.from_json r with
    | .ok u => .ok (some u)
    | .error e => .error ["Failed to parse resource", e]

/-- The context stage of `get_components` (is_authorized.rs 196-199). -/
def contextStage (fields : List (String × Json)) (schema : Option Schema) (action : EntityUid) :
    Except (List String) Context :=
  match Context.from_json_value (Json.obj fields) (schema.map (fun s => (s, action))) with
  | .ok c => .ok c
  | .error e => .error [e]

/-- The request stage of `get_components` (is_authorized.rs 200-211). -/
def requestStage (principal : Option EntityUid) (action : EntityUid)
    (resource : Option EntityUid) (context : Context) (enable : Bool)
    (schema : Option Schema) : Except (List String) Request :=
  match Request.new principal (some action) resource context (if enable then schema else none) with
  | .ok q => .ok q
  | .error e => .error [e]

/-- `AuthorizationCall::get_components` (is_authorized.rs 172-215):
schema, then principal, action, resource, then context, request and
slice; the first failing stage aborts with its messages. -/
def AuthorizationCall.get_components (call : AuthorizationCall) :
    Except (List String) (Request × PolicySet × Entities) :=
  match schemaStage call.schema with
  | .error es => .error es
  | .ok schema =>
  match principalStage call.principal with
  | .error es => .error es
  | .ok principal =>
  match actionStage call.action with
  | .error es => .error es
  | .ok action =>
  match resourceStage call.resource with
  | .error es => .error es
  | .ok resource =>
  match contextStage call.context schema action with
  | .error es => .error es
  | .ok context =>
  match requestStage principal action resource context call.enable_request_validation schema with
  | .error es => .error es
  | .ok q =>
  match call.slice.try_into schema with
  | .error es => .error es
  | .ok pe => .ok (q, pe.1, pe.2)

/-- The authorizer, passed explicitly where the source reads the
thread-local `AUTHORIZER` (is_authorized.rs 38-41):
`Authorizer::is_authorized` is not under `src/`, and per §4.7 it is
total — every input yields a `Response`, evaluation errors only fill its
`errors`.  The theorems quantify over this function. -/
abbrev Authorizer := Request → PolicySet → Entities → Response

/-- `is_authorized` (is_authorized.rs 44-55): components parse → ask the
authorizer and wrap its response as a success answer; otherwise a
parse-failed answer. -/
def is_authorized (authorizer : Authorizer) (call : AuthorizationCall) : AuthorizationAnswer :=
  match call.get_components with
  | .ok rpe => .Success (InterfaceResponse.from_response (authorizer rpe.1 rpe.2.1 rpe.2.2))
  | .error errors => .ParseFailed errors

/-! ## serde deserialization of the call

Modelled from the spec and the serde attributes visible on the structs in
`src/` (`Option` fields, `MapPreventDuplicates` on `context` and
`templates`, `try_from = "Vec<Link>"` on `Links`, the default on
`enable_request_validation`): the derived deserializers reject a repeated
known field, a duplicate map key, and a duplicate slot, during parsing. -/

/-- Does any known field name occur more than once in the object? -/
def dupKnownField (fields : List (String × Json)) (known : List String) : Bool :=
  known.any (fun k => 2 ≤ (fields.map (fun p => p.1)).count k)

/-- Read an optional struct field holding a `JsonValueWithNoDuplicateKeys`
(`null` and absence both mean `None`). -/
def optJsonField (fields : List (String × Json)) (k : String) : Except String (Option Json) :=
  match getField fields k with
  | none => .ok none
  | some .null => .ok none
  | some v => if v.noDupDeep then .ok (some v) else .error "found duplicate key"

/-- An object all of whose values are strings, kept in input order. -/
def strMapOf : List (String × Json) → Option (List (String × String))
  | [] => some []
  | (k, .str v) :: rest => (strMapOf rest).map (fun m => (k, v) :: m)
  | _ => none

/-- Deserialize `PolicySpecification` (frontend/utils.rs): one string of
concatenated policies, or a map of ids to single policies with no
duplicate ids (the src test expects "no duplicate IDs"). -/
def PolicySpecification.fromJson : Json → Except String PolicySpecification
  | .str s => .ok (.Concatenated s)
  | .obj pf =>
    if nodupB (pf.map (fun p => p.1)) then
      match strMapOf pf with
      | some m => .ok (.Map m)
      | none => .error "invalid type: policy text must be a string"
    else .error "expected a policy set with no duplicate IDs"
  | _ => .error "expected either a string or a map of policies"

/-- Deserialize one `Link`. -/
def Link.fromJson : Json → Except String Link
  | .obj lf =>
    match getField lf "slot", getField lf "value" with
    | some (.str slot), some (.obj vf) =>
      match getField vf "ty", getField vf "eid" with
      | some (.str ty), some (.str eid) => .ok ⟨slot, ⟨ty, eid⟩⟩
      | _, _ => .error "invalid `value` of a template link"
    | _, _ => .error "invalid template link"
  | _ => .error "invalid template link"

/-- Deserialize a list of `Link`s. -/
def linksFromJson : List Json → Except String (List Link)
  | [] => .ok []
  | j :: rest =>
    match Link.fromJson j with
    | .error e => .error e
    | .ok l =>
      match linksFromJson rest with
      | .error e => .error e
      | .ok ls => .ok (l :: ls)

/-- Deserialize one `TemplateLink`; its `instantiations` go through
`Links::try_from`, so a duplicate slot fails here, during parsing. -/
def TemplateLink.fromJson : Json → Except String TemplateLink
  | .obj tf =>
    if dupKnownField tf ["template_id", "result_policy_id", "instantiations"] then
      .error "duplicate field"
    else
      match getField tf "template_id", getField tf "result_policy_id",
            getField tf "instantiations" with
      | some (.str tid), some (.str rid), some (.arr linkJs) =>
        match linksFromJson linkJs with
        | .error e => .error e
        | .ok ls =>
          match Links.try_from ls with
          | .error e => .error e.toMessage
          | .ok links => .ok ⟨tid, rid, links⟩
      | _, _, _ => .error "invalid template instantiation"
  | _ => .error "invalid template instantiation"

/-- Deserialize a list of `TemplateLink`s. -/
def templateLinksFromJson : List Json → Except String (List TemplateLink)
  | [] => .ok []
  | j :: rest =>
    match TemplateLink.fromJson j with
    | .error e => .error e
    | .ok tl =>
      match templateLinksFromJson rest with
      | .error e => .error e
      | .ok tls => .ok (tl :: tls)

/-- Read an optional map-of-strings field deserialized through
`MapPreventDuplicates` (the `templates` field). -/
def optStrMapField (fields : List (String × Json)) (k : String) :
    Except String (Option (List (String × String))) :=
  match getField fields k with
  | none => .ok none
  | some .null => .ok none
  | some (.obj tf) =>
    if nodupB (tf.map (fun p => p.1)) then
      match strMapOf tf with
      | some m => .ok (some m)
      | none => .error "invalid type: template text must be a string"
    else .error "found duplicate key"
  | some _ => .error "invalid type: expected a map"

/-- Deserialize `RecvdSlice` (is_authorized.rs 285-301). -/
def RecvdSlice.fromJson : Json → Except String RecvdSlice
  | .obj fields =>
    if dupKnownField fields ["policies", "entities", "templates", "template_instantiations"] then
      .error "duplicate field"
    else
      match getField fields "policies" with
      | none => .error "missing field `policies`"
      | some policiesJ =>
        match PolicySpecification.fromJson policiesJ with
        | .error e => .error e
        | .ok policies =>
          match getField fields "entities" with
          | none => .error "missing field `entities`"
          | some entitiesJ =>
            if entitiesJ.noDupDeep then
              match optStrMapField fields "templates" with
              | .error e => .error e
              | .ok templates =>
                match getField fields "template_instantiations" with
                | none => .ok ⟨policies, entitiesJ, templates, none⟩
                | some .null => .ok ⟨policies, entitiesJ, templates, none⟩
                | some (.arr tjs) =>
                  match templateLinksFromJson tjs with
                  | .error e => .error e
                  | .ok tls => .ok ⟨policies, entitiesJ, templates, some tls⟩
                | some _ => .error "invalid type for field `template_instantiations`"
            else .error "found duplicate key"
  | _ => .error "invalid type: expected struct RecvdSlice"

/-- Read the `enable_request_validation` field, defaulting to `true`
(is_authorized.rs 163-170). -/
def enableReqValField (fields : List (String × Json)) : Except String Bool :=
  match getField fields "enable_request_validation" with
  | none => .ok true
  | some (.bool b) => .ok b
  | some _ => .error "invalid type for field `enable_request_validation`"

/-- Deserialize `AuthorizationCall` (is_authorized.rs 145-166):
`principal`, `resource` and `schema` may be absent; `action`, `context`
and `slice` are required; the `context` map refuses duplicate keys
(`MapPreventDuplicates`), and every `JsonValueWithNoDuplicateKeys` field
refuses duplicate keys at any depth. -/
def AuthorizationCall.fromJson (j : Json) : Except String AuthorizationCall :=
  match j with
  | .obj fields =>
    if dupKnownField fields ["principal", "action", "resource", "context", "schema",
        "enable_request_validation", "slice"] then
      .error "duplicate field"
    else
      match getField fields "context" with
      | none => .error "missing field `context`"
      | some (.obj ctxFields) =>
        if nodupB (ctxFields.map (fun p => p.1)) then
          if noDupDeepFields ctxFields then
            match getField fields "action" with
            | none => .error "missing field `action`"
            | some actionJ =>
              if actionJ.noDupDeep then
                match optJsonField fields "principal" with
                | .error e => .error e
                | .ok principal =>
                  match optJsonField fields "resource" with
                  | .error e => .error e
                  | .ok resource =>
                    match optJsonField fields "schema" with
                    | .error e => .error e
                    | .ok schema =>
                      match enableReqValField fields with
                      | .error e => .error e
                      | .ok erv =>
                        match getField fields "slice" with
                        | none => .error "missing field `slice`"
                        | some sliceJ =>
                          match RecvdSlice.fromJson sliceJ with
                          | .error e => .error e
                          | .ok slice =>
                            .ok ⟨principal, actionJ, resource, ctxFields, schema, erv, slice⟩
              else .error "found duplicate key"
          else .error "found duplicate key"
        else .error "found duplicate key"
      | some _ => .error "invalid type for field `context`"
  | _ => .error "invalid type: expected struct AuthorizationCall"

/-- `serde_json::from_str::<AuthorizationCall>`: read the JSON text, then
deserialize the call. -/
def AuthorizationCall.from_str (input : String) : Except String AuthorizationCall :=
  match parseJsonStr input with
  | none => .error "expected value"
  | some j => AuthorizationCall.fromJson j

/-- `json_is_authorized` (is_authorized.rs 61-71): a deserialization
failure becomes an internal failure "error parsing call: ..."; a
successful answer becomes a success result; a parse-failed answer
becomes a bad-request failure. -/
def json_is_authorized (authorizer : Authorizer) (input : String) : InterfaceResult :=
  match AuthorizationCall.from_str input with
  | .error e => InterfaceResult.fail_internally ("error parsing call: " ++ e)
  | .ok call =>
    match is_authorized authorizer call with
    | .Success response => InterfaceResult.succeed (.Success response)
    | .ParseFailed errors => InterfaceResult.fail_bad_request errors

/-! ## Concrete material used by witnesses and counterexamples -/

/-- A stub authorizer that denies with no diagnostics. -/
def denyAll : Authorizer := fun _ _ _ => ⟨.Deny, [], []⟩

/-- A stub authorizer whose response carries an evaluation-error message,
exercising the path where evaluation errors fill the diagnostics. -/
def errAuthorizer : Authorizer := fun _ _ _ => ⟨.Deny, [], ["policy0: evaluation error"]⟩

/-- A minimal well-formed call: action, empty context, empty slice. -/
def okCallStr : String :=
  "\x7b\"action\":\x7b\"type\":\"A\",\"id\":\"v\"\x7d,\"context\":\x7b\x7d,\"slice\":\x7b\"policies\":\"\",\"entities\":[]\x7d\x7d"

/-- The call `okCallStr` deserializes to. -/
def okCallVal : AuthorizationCall :=
  ⟨none, Json.obj [("type", Json.str "A"), ("id", Json.str "v")], none, [], none, true,
    ⟨.Concatenated "", Json.arr [], none, none⟩⟩

/-! ## C1 -/

/-- C1: for every authorization call whose components (request, policies,
entities) parse successfully, `json_is_authorized` returns a success
result containing a decision and diagnostics; whatever errors the
authorizer's evaluation produced appear only in the `errors` set of the
diagnostics, never as a failure result (the theorem quantifies over the
authorizer, so over every possible set of evaluation errors). -/
theorem c1_success_shape (authorizer : Authorizer) (s : String)
    (call : AuthorizationCall) (q : Request) (policies : PolicySet) (entities : Entities)
    (hde : AuthorizationCall.from_str s = .ok call)
    (hco : call.get_components = .ok (q, policies, entities)) :
    json_is_authorized authorizer s =
      InterfaceResult.success (.Success
        ⟨(authorizer q policies entities).decision,
         ⟨(authorizer q policies entities).reason,
          (authorizer q policies entities).errors⟩⟩) := by
  simp only [json_is_authorized, hde, is_authorized, hco]
  rfl

/-- C1 witness: the minimal call under an authorizer reporting an
evaluation error yields a success result with that error in the
diagnostics. -/
theorem c1_success_shape_witness :
    json_is_authorized errAuthorizer okCallStr =
      InterfaceResult.success (.Success
        ⟨Decision.Deny, ⟨[], ["policy0: evaluation error"]⟩⟩) :=
  c1_success_shape errAuthorizer okCallStr okCallVal
    ⟨none, some ⟨"A", "v"⟩, none, ⟨[]⟩⟩ PolicySet.new Entities.empty rfl rfl

/-! ## C2 -/

/-- C2 counterexample: on the input string `iefjieoafiaeosij` (not valid
JSON, the string of the src test `test_failure_on_invalid_syntax`)
`json_is_authorized` returns an internal failure (`fail_internally`),
not a "bad request" failure as the claim states. -/
theorem c2_counterexample :
    (json_is_authorized denyAll "iefjieoafiaeosij").isBadRequest = false ∧
    (json_is_authorized denyAll "iefjieoafiaeosij").isInternalFailure = true ∧
    (json_is_authorized denyAll "iefjieoafiaeosij").isSuccess = false :=
  ⟨rfl, rfl, rfl⟩

/-- C2 (amended): a string the deserializer rejects yields an *internal*
failure carrying the parse message; a string that deserializes but whose
components fail to parse yields a *bad request* failure carrying the
messages; neither is a success. -/
theorem c2_parse_failure_result (authorizer : Authorizer) (s : String) :
    (∀ e, AuthorizationCall.from_str s = .error e →
      json_is_authorized authorizer s =
        InterfaceResult.fail_internally ("error parsing call: " ++ e)) ∧
    (∀ call errs, AuthorizationCall.from_str s = .ok call →
      call.get_components = .error errs →
      json_is_authorized authorizer s = InterfaceResult.fail_bad_request errs) ∧
    (∀ e, AuthorizationCall.from_str s = .error e →
      (json_is_authorized authorizer s).isSuccess = false) ∧
    (∀ call errs, AuthorizationCall.from_str s = .ok call →
      call.get_components = .error errs →
      (json_is_authorized authorizer s).isSuccess = false) := by
  refine ⟨?_, ?_, ?_, ?_⟩
  · intro e he
    simp only [json_is_authorized, he]
  · intro call errs h1 h2
    simp only [json_is_authorized, h1, is_authorized, h2]
  · intro e he
    simp only [json_is_authorized, he]
    rfl
  · intro call errs h1 h2
    simp only [json_is_authorized, h1, is_authorized, h2]
    rfl

/-! ## C5 -/

/-- C5: `json_is_authorized` is deterministic — two calls with equal
input strings (under the same per-thread authorizer, whose construction
`Authorizer::new()` is itself deterministic) return equal
`InterfaceResult`s.  The embedding is a pure function, so equality of
inputs transports to equality of outputs. -/
theorem c5_deterministic (authorizer : Authorizer) (s1 s2 : String) (h : s1 = s2) :
    json_is_authorized authorizer s1 = json_is_authorized authorizer s2 := by
  rw [h]

/-- C5 witness at a concrete input. -/
theorem c5_deterministic_witness :
    json_is_authorized denyAll okCallStr = json_is_authorized denyAll okCallStr :=
  c5_deterministic denyAll okCallStr okCallStr rfl

/-! ## C4 -/

/-- A call omitting only the `action` field (principal, resource,
context and slice all present and well-formed). -/
def noActionJson : Json :=
  Json.obj [("principal", Json.obj [("type", Json.str "User"), ("id", Json.str "alice")]),
            ("resource", Json.obj [("type", Json.str "Photo"), ("id", Json.str "door")]),
            ("context", Json.obj []),
            ("slice", Json.obj [("policies", Json.str ""), ("entities", Json.arr [])])]

/-- C4 counterexample: `action` is not optional in `AuthorizationCall`
(is_authorized.rs 149): a call omitting it is rejected at parse time,
so it is not the case that each of principal, action and resource may be
omitted. -/
theorem c4_counterexample :
    AuthorizationCall.fromJson noActionJson = .error "missing field `action`" := rfl

/-- C4 (amended): `principal` and `resource` may each be omitted —
request construction still succeeds with the omitted fields absent
(standing for the `Unspecified` entity in total mode) — but `action` is
required, a call omitting it being rejected at parse time. -/
theorem c4_optional_principal_resource (call : AuthorizationCall)
    (hp : call.principal = none) (hr : call.resource = none) (hs : call.schema = none)
    (a : EntityUid) (ha : EntityUid.from_json call.action = .ok a)
    (pe : PolicySet × Entities) (hslice : call.slice.try_into none = .ok pe) :
    call.get_components = .ok (⟨none, some a, none, ⟨call.context⟩⟩, pe.1, pe.2) := by
  simp only [AuthorizationCall.get_components, hp, hr, hs, schemaStage, principalStage,
    actionStage, ha, resourceStage, contextStage, Context.from_json_value,
    requestStage, Request.new, hslice]

/-- C4 witness: the minimal call, which omits principal and resource,
yields components with both fields absent. -/
theorem c4_optional_principal_resource_witness :
    okCallVal.get_components =
      .ok (⟨none, some ⟨"A", "v"⟩, none, ⟨[]⟩⟩, PolicySet.new, Entities.empty) :=
  c4_optional_principal_resource okCallVal rfl rfl rfl ⟨"A", "v"⟩ rfl
    (PolicySet.new, Entities.empty) rfl

/-! ## C7 -/

/-- C7: the integer-overflow error type has exactly the three variants
`BinaryOp`, `Multiplication` and `UnaryOp` — every value is of one of
the three shapes and the shapes are mutually exclusive — and the
`Multiplication` variant records its second operand as an `Integer`
constant where `BinaryOp` records a runtime `Value` (visible in the
existentials' types below). -/
theorem c7_integer_overflow_variants :
    (∀ e : IntegerOverflowError,
      (∃ (op : BinaryOp) (arg1 arg2 : Value), e = .BinaryOp op arg1 arg2) ∨
      (∃ (arg : Value) (constant : Integer), e = .Multiplication arg constant) ∨
      (∃ (op : UnaryOp) (arg : Value), e = .UnaryOp op arg)) ∧
    (∀ (op : BinaryOp) (arg1 arg2 : Value) (arg : Value) (constant : Integer),
      IntegerOverflowError.BinaryOp op arg1 arg2 ≠ IntegerOverflowError.Multiplication arg constant) ∧
    (∀ (op : BinaryOp) (arg1 arg2 : Value) (op2 : UnaryOp) (arg : Value),
      IntegerOverflowError.BinaryOp op arg1 arg2 ≠ IntegerOverflowError.UnaryOp op2 arg) ∧
    (∀ (arg : Value) (constant : Integer) (op : UnaryOp) (arg2 : Value),
      IntegerOverflowError.Multiplication arg constant ≠ IntegerOverflowError.UnaryOp op arg2) := by
  refine ⟨?_, ?_, ?_, ?_⟩
  · intro e
    cases e with
    | BinaryOp op a b => exact .inl ⟨op, a, b, rfl⟩
    | Multiplication a c => exact .inr (.inl ⟨a, c, rfl⟩)
    | UnaryOp op a => exact .inr (.inr ⟨op, a, rfl⟩)
  · intro op a1 a2 arg c h
    exact IntegerOverflowError.noConfusion h
  · intro op a1 a2 op2 arg h
    exact IntegerOverflowError.noConfusion h
  · intro arg c op a2 h
    exact IntegerOverflowError.noConfusion h

/-! ## C6 -/

/-- C6: every `NonValue` error is constructed with its advice set to the
fixed message recommending the partial evaluation APIs, and `non_value`
is the only constructor in err.rs that sets advice unconditionally —
that is, of its own accord: every other constructor either never sets
advice (including the three `From` conversions and `recursion_limit`),
or, for `type_error_with_advice` and `type_error_with_advice_single`,
sets it to a caller-supplied string, so no single fixed advice value is
set across their calls. -/
theorem c6_non_value_only_unconditional_advice :
    (∀ e, (EvaluationError.non_value e).advice =
      some "consider using the partial evaluation APIs") ∧
    (∀ euid, (EvaluationError.entity_does_not_exist euid).advice = none) ∧
    (∀ entity attr, (EvaluationError.entity_attr_does_not_exist entity attr).advice = none) ∧
    (∀ attr, (EvaluationError.unspecified_entity_access attr).advice = none) ∧
    (∀ attr alts, (EvaluationError.record_attr_does_not_exist attr alts).advice = none) ∧
    (∀ expected actual, (EvaluationError.type_error expected actual).advice = none) ∧
    (∀ expected actual, (EvaluationError.type_error_single expected actual).advice = none) ∧
    (∀ fn expected actual, (EvaluationError.wrong_num_arguments fn expected actual).advice = none) ∧
    (∀ id, (EvaluationError.unlinked_slot id).advice = none) ∧
    (∀ n msg, (EvaluationError.failed_extension_function_application n msg).advice = none) ∧
    (EvaluationError.recursion_limit.advice = none) ∧
    (∀ err, (EvaluationError.from_extension_function_lookup_error err).advice = none) ∧
    (∀ err, (EvaluationError.from_integer_overflow_error err).advice = none) ∧
    (∀ err, (EvaluationError.from_restricted_expr_error err).advice = none) ∧
    (¬ ∃ v, ∀ expected actual advice,
      (EvaluationError.type_error_with_advice expected actual advice).advice = some v) ∧
    (¬ ∃ v, ∀ expected actual advice,
      (EvaluationError.type_error_with_advice_single expected actual advice).advice = some v) := by
  refine ⟨fun _ => rfl, fun _ => rfl, fun _ _ => rfl, fun _ => rfl, fun _ _ => rfl,
    fun _ _ => rfl, fun _ _ => rfl, fun _ _ _ => rfl, fun _ => rfl, fun _ _ => rfl,
    rfl, fun _ => rfl, fun _ => rfl, fun _ => rfl, ?_, ?_⟩
  · rintro ⟨v, hv⟩
    have h1 := hv ⟨.Bool, []⟩ .Long "a"
    have h2 := hv ⟨.Bool, []⟩ .Long "b"
    simp only [EvaluationError.type_error_with_advice, Option.some.injEq] at h1 h2
    exact absurd (h1.trans h2.symm) (by decide)
  · rintro ⟨v, hv⟩
    have h1 := hv .Bool .Long "a"
    have h2 := hv .Bool .Long "b"
    simp only [EvaluationError.type_error_with_advice_single,
      EvaluationError.type_error_with_advice, Option.some.injEq] at h1 h2
    exact absurd (h1.trans h2.symm) (by decide)

/-! ## C9 -/

/-- C9: the diagnostic `help()` of an evaluation error returns the
kind's own help when no advice is set, the advice when the kind has no
help, the two joined as `<help>; <advice>` when both are present, and
nothing when both are absent. -/
theorem c9_help_of_error (e : EvaluationError) :
    (∀ h, e.error_kind.help = some h → e.advice = none → e.help = some h) ∧
    (∀ a, e.error_kind.help = none → e.advice = some a → e.help = some a) ∧
    (∀ h a, e.error_kind.help = some h → e.advice = some a →
      e.help = some (h ++ "; " ++ a)) ∧
    (e.error_kind.help = none → e.advice = none → e.help = none) := by
  refine ⟨?_, ?_, ?_, ?_⟩
  · intro h hk ha
    simp only [EvaluationError.help, hk, ha]
  · intro a hk ha
    simp only [EvaluationError.help, hk, ha]
  · intro h a hk ha
    simp only [EvaluationError.help, hk, ha]
  · intro hk ha
    simp only [EvaluationError.help, hk, ha]

/-! ## C8 -/

/-- A successfully deserialized call has no duplicate key in its context
object: the `MapPreventDuplicates` check is on the success path of the
deserializer. -/
theorem fromJson_ok_context_nodup (fields : List (String × Json)) (call : AuthorizationCall)
    (h : AuthorizationCall.fromJson (Json.obj fields) = .ok call)
    (cf : List (String × Json)) (hc : getField fields "context" = some (Json.obj cf)) :
    (cf.map Prod.fst).Nodup := by
  simp only [AuthorizationCall.fromJson, hc] at h
  split at h
  · exact Except.noConfusion h
  · split at h
    · exact (nodupB_iff _).mp (by assumption)
    · exact Except.noConfusion h

/-- The call with a duplicated context key used as C8's witness input. -/
def dupCtxStr : String :=
  "\x7b\"action\":\x7b\"type\":\"A\",\"id\":\"v\"\x7d,\"context\":\x7b\"k\":1,\"k\":2\x7d,\"slice\":\x7b\"policies\":\"\",\"entities\":[]\x7d\x7d"

/-- C8: an authorization call whose context object contains a duplicate
key fails during deserialization with a parse error (an internal
"error parsing call" failure); the duplicate keys are never merged —
no `AuthorizationCall` is ever constructed, so nothing is evaluated. -/
theorem c8_duplicate_context_key (authorizer : Authorizer) (s : String)
    (fields cf : List (String × Json))
    (hp : parseJsonStr s = some (Json.obj fields))
    (hc : getField fields "context" = some (Json.obj cf))
    (hdup : ¬ (cf.map Prod.fst).Nodup) :
    ∃ e, json_is_authorized authorizer s =
        InterfaceResult.fail_internally ("error parsing call: " ++ e) ∧
      (∀ call, AuthorizationCall.from_str s ≠ .ok call) := by
  have hne : ∀ call, AuthorizationCall.fromJson (Json.obj fields) ≠ .ok call := fun call hok =>
    hdup (fromJson_ok_context_nodup fields call hok cf hc)
  cases hE : AuthorizationCall.fromJson (Json.obj fields) with
  | ok call => exact absurd hE (hne call)
  | error e =>
    refine ⟨e, ?_, ?_⟩
    · simp only [json_is_authorized, AuthorizationCall.from_str, hp, hE]
    · intro call
      simp only [AuthorizationCall.from_str, hp, hE]
      exact fun hcontra => Except.noConfusion hcontra

/-- C8 witness: the concrete duplicated-context call string. -/
theorem c8_duplicate_context_key_witness :
    ∃ e, json_is_authorized denyAll dupCtxStr =
        InterfaceResult.fail_internally ("error parsing call: " ++ e) ∧
      (∀ call, AuthorizationCall.from_str dupCtxStr ≠ .ok call) :=
  c8_duplicate_context_key denyAll dupCtxStr
    [("action", Json.obj [("type", Json.str "A"), ("id", Json.str "v")]),
     ("context", Json.obj [("k", Json.num 1), ("k", Json.num 2)]),
     ("slice", Json.obj [("policies", Json.str ""), ("entities", Json.arr [])])]
    [("k", Json.num 1), ("k", Json.num 2)]
    rfl rfl (by decide)

/-! ## C3 -/

/-- `parse_instantiation` never fails with an empty message list. -/
theorem parse_instantiation_error_nonempty (v : Link) (e : List String)
    (h : parse_instantiation v = .error e) : e ≠ [] := by
  unfold parse_instantiation at h
  split at h
  · exact Except.noConfusion h
  · split at h
    · exact Except.noConfusion h
    · cases h
      exact List.cons_ne_nil _ _

/-- `buildVals` never fails with an empty message list. -/
theorem buildVals_error_nonempty (l : List Link) :
    ∀ (m : List (SlotId × EntityUid)) (e : List String),
      buildVals m l = .error e → e ≠ [] := by
  induction l with
  | nil => intro m e h; exact Except.noConfusion h
  | cons x rest ih =>
    intro m e h
    unfold buildVals at h
    cases hp : parse_instantiation x with
    | error e' =>
      simp only [hp] at h
      cases h
      exact parse_instantiation_error_nonempty x _ hp
    | ok su =>
      simp only [hp] at h
      exact ih _ e h

/-- A link whose result id is already present in the set fails. -/
theorem link_error_of_mem (ps : PolicySet) (tid iid : String)
    (vals : List (SlotId × EntityUid)) (h : iid ∈ ps.allIds) :
    ∃ e, ps.link tid iid vals = .error e := by
  unfold PolicySet.link
  by_cases hc : (ps.templates.map (fun p => p.1)).contains tid = true
  · rw [if_pos hc, if_pos h]
    exact ⟨_, rfl⟩
  · rw [if_neg hc]
    exact ⟨_, rfl⟩

/-- `parse_instantiations` fails (with a nonempty message list) when the
result policy id is already taken. -/
theorem parse_instantiations_error_of_mem (ps : PolicySet) (tl : TemplateLink)
    (h : tl.result_policy_id ∈ ps.allIds) :
    ∃ e, parse_instantiations ps tl = .error e ∧ e ≠ [] := by
  unfold parse_instantiations
  cases hb : buildVals [] tl.instantiations.links with
  | error e =>
    simp only [hb]
    exact ⟨e, rfl, buildVals_error_nonempty _ _ e hb⟩
  | ok vals =>
    obtain ⟨e, he⟩ := link_error_of_mem ps tl.template_id tl.result_policy_id vals h
    simp only [hb, he]
    exact ⟨_, rfl, List.cons_ne_nil _ _⟩

/-- Linking only ever adds an id: membership in `allIds` is preserved. -/
theorem link_mem_mono (ps ps' : PolicySet) (tid iid : String)
    (vals : List (SlotId × EntityUid)) (h : ps.link tid iid vals = .ok ps')
    (x : String) (hx : x ∈ ps.allIds) : x ∈ ps'.allIds := by
  unfold PolicySet.link at h
  split at h
  · split at h
    · exact Except.noConfusion h
    · cases h
      simp only [PolicySet.allIds, List.mem_append] at hx ⊢
      tauto
  · exact Except.noConfusion h

/-- `parse_instantiations` preserves membership in `allIds`. -/
theorem parse_instantiations_mem_mono (ps ps' : PolicySet) (tl : TemplateLink)
    (h : parse_instantiations ps tl = .ok ps')
    (x : String) (hx : x ∈ ps.allIds) : x ∈ ps'.allIds := by
  unfold parse_instantiations at h
  cases hb : buildVals [] tl.instantiations.links with
  | error e =>
    simp only [hb] at h
    exact Except.noConfusion h
  | ok vals =>
    simp only [hb] at h
    cases hl : ps.link tl.template_id tl.result_policy_id vals with
    | error e =>
      simp only [hl] at h
      exact Except.noConfusion h
    | ok ps'' =>
      simp only [hl] at h
      cases h
      exact link_mem_mono ps ps' tl.template_id tl.result_policy_id vals hl x hx

/-- The error accumulator of the instantiation loop only grows. -/
theorem instLoop_errs_grow (l : List TemplateLink) :
    ∀ (ps : PolicySet) (errs : List String),
      ∃ extra, (instLoop ps errs l).2 = errs ++ extra := by
  induction l with
  | nil => intro ps errs; exact ⟨[], (List.append_nil errs).symm⟩
  | cons tl rest ih =>
    intro ps errs
    unfold instLoop
    cases hp : parse_instantiations ps tl with
    | ok ps' =>
      simp only [hp]
      exact ih ps' errs
    | error err =>
      simp only [hp]
      obtain ⟨extra, hex⟩ := ih ps (errs ++ err)
      exact ⟨err ++ extra, by rw [hex, List.append_assoc]⟩

/-- If some instantiation in the list has a result id already present in
the running set, the loop ends with a nonempty error list. -/
theorem instLoop_error_of_mem (l : List TemplateLink) :
    ∀ (ps : PolicySet) (errs : List String) (tl : TemplateLink),
      tl ∈ l → tl.result_policy_id ∈ ps.allIds → (instLoop ps errs l).2 ≠ [] := by
  induction l with
  | nil => intro ps errs tl hmem; exact absurd hmem (List.not_mem_nil tl)
  | cons x rest ih =>
    intro ps errs tl hmem hid
    unfold instLoop
    rcases List.mem_cons.mp hmem with heq | hmem'
    · subst heq
      obtain ⟨e, he, hne⟩ := parse_instantiations_error_of_mem ps tl hid
      simp only [he]
      obtain ⟨extra, hex⟩ := instLoop_errs_grow rest ps (errs ++ e)
      rw [hex]
      intro hnil
      rcases List.append_eq_nil.mp hnil with ⟨h1, _⟩
      exact hne (List.append_eq_nil.mp h1).2
    · cases hp : parse_instantiations ps x with
      | ok ps' =>
        simp only [hp]
        exact ih ps' errs tl hmem'
          (parse_instantiations_mem_mono ps ps' x hp tl.result_policy_id hid)
      | error err =>
        simp only [hp]
        exact ih ps (errs ++ err) tl hmem' hid

/-- `RecvdSlice::try_into` fails whenever a template instantiation's
result id collides with an id of the parsed policy set. -/
theorem try_into_error_of_mem (s : RecvdSlice) (schema : Option Schema)
    (ps : PolicySet) (insts : List TemplateLink) (tl : TemplateLink)
    (hps : s.policySetResult = .ok ps)
    (hti : s.template_instantiations = some insts)
    (hmem : tl ∈ insts) (hid : tl.result_policy_id ∈ ps.allIds) :
    ∃ errs, s.try_into schema = .error errs := by
  unfold RecvdSlice.try_into
  cases hE : Entities.from_json_value s.entities schema with
  | ok entities =>
    simp only [hps]
    unfold tryIntoFinish
    rw [hti]
    have hne := instLoop_error_of_mem insts ps [] tl hmem hid
    rw [if_neg (by simpa [List.isEmpty_iff] using hne)]
    exact ⟨_, rfl⟩
  | error e =>
    simp only [hps]
    unfold tryIntoFinish
    rw [hti]
    obtain ⟨extra, hex⟩ := instLoop_errs_grow insts PolicySet.new [e]
    have hne : (instLoop PolicySet.new [e] insts).2 ≠ [] := by
      rw [hex]; simp
    rw [if_neg (by simpa [List.isEmpty_iff] using hne)]
    exact ⟨_, rfl⟩

/-- If the slice fails for every schema, `get_components` fails. -/
theorem get_components_error_of_slice (call : AuthorizationCall)
    (hsl : ∀ schema, ∃ e, call.slice.try_into schema = .error e) :
    ∃ errs, call.get_components = .error errs := by
  unfold AuthorizationCall.get_components
  cases h1 : schemaStage call.schema with
  | error es => simp only [h1]; exact ⟨es, rfl⟩
  | ok schema =>
    simp only [h1]
    cases h2 : principalStage call.principal with
    | error es => simp only [h2]; exact ⟨es, rfl⟩
    | ok principal =>
      simp only [h2]
      cases h3 : actionStage call.action with
      | error es => simp only [h3]; exact ⟨es, rfl⟩
      | ok action =>
        simp only [h3]
        cases h4 : resourceStage call.resource with
        | error es => simp only [h4]; exact ⟨es, rfl⟩
        | ok resource =>
          simp only [h4]
          cases h5 : contextStage call.context schema action with
          | error es => simp only [h5]; exact ⟨es, rfl⟩
          | ok context =>
            simp only [h5]
            cases h6 : requestStage principal action resource context
                call.enable_request_validation schema with
            | error es => simp only [h6]; exact ⟨es, rfl⟩
            | ok q =>
              simp only [h6]
              obtain ⟨e, he⟩ := hsl schema
              simp only [he]
              exact ⟨e, rfl⟩

/-- C3: an authorization call containing a template instantiation whose
`result_policy_id` equals an id already in the parsed policy set (a
policy or template id) yields a parse-failed answer — a construction
error — and no authorization decision. -/
theorem c3_template_link_collision (authorizer : Authorizer) (call : AuthorizationCall)
    (ps : PolicySet) (insts : List TemplateLink) (tl : TemplateLink)
    (hps : call.slice.policySetResult = .ok ps)
    (hti : call.slice.template_instantiations = some insts)
    (hmem : tl ∈ insts) (hid : tl.result_policy_id ∈ ps.allIds) :
    ∃ errs, is_authorized authorizer call = .ParseFailed errs := by
  obtain ⟨errs, he⟩ := get_components_error_of_slice call
    (fun schema => try_into_error_of_mem call.slice schema ps insts tl hps hti hmem hid)
  exact ⟨errs, by simp only [is_authorized, he]⟩

/-- A concrete call whose template instantiation reuses the id `ID1` of
an existing policy. -/
def c3CallVal : AuthorizationCall :=
  ⟨none, Json.obj [("type", Json.str "A"), ("id", Json.str "v")], none, [], none, true,
    ⟨.Map [("ID1", "permit(principal, action, resource);")], Json.arr [],
     some [("ID0", "permit(principal == ?principal, action, resource);")],
     some [⟨"ID0", "ID1", ⟨[⟨"?principal", ⟨"User", "alice"⟩⟩]⟩⟩]⟩⟩

/-- C3 witness: the colliding call produces a parse-failed answer. -/
theorem c3_template_link_collision_witness :
    ∃ errs, is_authorized denyAll c3CallVal = .ParseFailed errs :=
  c3_template_link_collision denyAll c3CallVal
    ⟨[("ID1", "permit(principal, action, resource);")],
     [("ID0", "permit(principal == ?principal, action, resource);")], []⟩
    [⟨"ID0", "ID1", ⟨[⟨"?principal", ⟨"User", "alice"⟩⟩]⟩⟩]
    ⟨"ID0", "ID1", ⟨[⟨"?principal", ⟨"User", "alice"⟩⟩]⟩⟩
    rfl rfl (by decide) (by decide)

/-! ## C10 -/

/-- `dedupWithCount` of a nonempty list starts with a group of its head. -/
theorem dedupWithCount_head (x : String) (xs : List String) :
    ∃ n rest, dedupWithCount (x :: xs) = (n, x) :: rest := by
  cases h : dedupWithCount xs with
  | nil =>
    simp only [dedupWithCount, h]
    exact ⟨1, [], rfl⟩
  | cons p rest =>
    obtain ⟨n, y⟩ := p
    by_cases hxy : x = y
    · subst hxy
      simp only [dedupWithCount, h, if_pos rfl]
      exact ⟨n + 1, rest, rfl⟩
    · simp only [dedupWithCount, h, if_neg hxy]
      exact ⟨1, (n, y) :: rest, rfl⟩

/-- `dedupWithCount` is empty only on the empty list. -/
theorem dedupWithCount_eq_nil (l : List String) : dedupWithCount l = [] ↔ l = [] := by
  cases l with
  | nil => simp [dedupWithCount]
  | cons x xs =>
    obtain ⟨n, rest, h⟩ := dedupWithCount_head x xs
    simp [h]

/-- If `dedupWithCount` starts with a group of `y`, the list starts with `y`. -/
theorem dedupWithCount_head_eq (xs : List String) (n : Nat) (y : String)
    (rest : List (Nat × String)) (h : dedupWithCount xs = (n, y) :: rest) :
    ∃ t, xs = y :: t := by
  cases xs with
  | nil => simp [dedupWithCount] at h
  | cons z t =>
    obtain ⟨m, r, hz⟩ := dedupWithCount_head z t
    rw [hz] at h
    injection h with h1 _
    injection h1 with _ h2
    exact ⟨t, by rw [h2]⟩

/-- Every group count of `dedupWithCount` is at least one. -/
theorem dedupWithCount_pos (l : List String) : ∀ p ∈ dedupWithCount l, 1 ≤ p.1 := by
  induction l with
  | nil => simp [dedupWithCount]
  | cons x xs ih =>
    intro p hp
    cases h : dedupWithCount xs with
    | nil =>
      simp only [dedupWithCount, h, List.mem_singleton] at hp
      simp [hp]
    | cons q rest =>
      obtain ⟨n, y⟩ := q
      by_cases hxy : x = y
      · simp only [dedupWithCount, h, if_pos hxy] at hp
        rcases List.mem_cons.mp hp with hq | hq
        · simp [hq]
        · exact ih p (h ▸ List.mem_cons_of_mem _ hq)
      · simp only [dedupWithCount, h, if_neg hxy] at hp
        rcases List.mem_cons.mp hp with hq | hq
        · simp [hq]
        · exact ih p (h ▸ hq)

/-- The group representatives form a sublist of the original list. -/
theorem dedupWithCount_snd_sublist (l : List String) :
    List.Sublist ((dedupWithCount l).map (fun p => p.2)) l := by
  induction l with
  | nil => simp [dedupWithCount]
  | cons x xs ih =>
    cases h : dedupWithCount xs with
    | nil =>
      simp only [dedupWithCount, h, List.map_cons, List.map_nil]
      exact (List.nil_sublist xs).cons₂ x
    | cons q rest =>
      obtain ⟨n, y⟩ := q
      rw [h] at ih
      by_cases hxy : x = y
      · simp only [dedupWithCount, h, if_pos hxy]
        exact ih.cons x
      · simp only [dedupWithCount, h, if_neg hxy, List.map_cons]
        simp only [List.map_cons] at ih
        exact ih.cons₂ x

/-- Adjacent groups of `dedupWithCount` carry different strings. -/
theorem dedupWithCount_chain_ne (l : List String) :
    List.Chain' (fun p q : Nat × String => p.2 ≠ q.2) (dedupWithCount l) := by
  induction l with
  | nil => simp [dedupWithCount]
  | cons x xs ih =>
    cases h : dedupWithCount xs with
    | nil => simp [dedupWithCount, h]
    | cons q rest =>
      obtain ⟨n, y⟩ := q
      rw [h] at ih
      by_cases hxy : x = y
      · simp only [dedupWithCount, h, if_pos hxy]
        rw [List.chain'_cons'] at ih ⊢
        exact ih
      · simp only [dedupWithCount, h, if_neg hxy]
        rw [List.chain'_cons]
        exact ⟨hxy, ih⟩

/-- On a sorted list, `dupsOf` holds exactly the strings occurring at
least twice. -/
theorem mem_dupsOf_iff (l : List String) (hs : l.Sorted (· ≤ ·)) (s : String) :
    s ∈ dupsOf l ↔ 2 ≤ l.count s := by
  induction l with
  | nil => simp [dupsOf, dedupWithCount]
  | cons x xs ih =>
    have hs' : xs.Sorted (· ≤ ·) := hs.of_cons
    have hx : ∀ y ∈ xs, x ≤ y := List.rel_of_sorted_cons hs
    cases h : dedupWithCount xs with
    | nil =>
      have hxs : xs = [] := (dedupWithCount_eq_nil xs).mp h
      subst hxs
      simp only [dupsOf, dedupWithCount, List.filterMap_cons, if_pos rfl, List.filterMap_nil,
        List.not_mem_nil, false_iff]
      by_cases hsx : s = x
      · subst hsx
        simp [List.count_cons_self]
      · simp [List.count_cons_of_ne hsx]
    | cons q rest =>
      obtain ⟨n, y⟩ := q
      obtain ⟨t, hxs⟩ := dedupWithCount_head_eq xs n y rest h
      have hn : 1 ≤ n := dedupWithCount_pos xs (n, y) (h ▸ List.mem_cons_self _ _)
      have ihs := ih hs'
      have hdups_xs : dupsOf xs =
          List.filterMap (fun p => if p.1 = 1 then none else some p.2) ((n, y) :: rest) := by
        rw [dupsOf, h]
      by_cases hxy : x = y
      · subst hxy
        have hd2 : dedupWithCount (x :: xs) = (n + 1, x) :: rest := by
          simp [dedupWithCount, h]
        have hmemx : x ∈ xs := by rw [hxs]; exact List.mem_cons_self _ _
        have hcx : 0 < xs.count x := List.count_pos_iff.mpr hmemx
        have hstep : dupsOf (x :: xs) =
            x :: List.filterMap (fun p => if p.1 = 1 then none else some p.2) rest := by
          rw [dupsOf, hd2, List.filterMap_cons, if_neg (by omega : ¬ n + 1 = 1)]
        by_cases hsx : s = x
        · subst hsx
          constructor
          · intro _
            rw [List.count_cons_self]
            omega
          · intro _
            rw [hstep]
            exact List.mem_cons_self _ _
        · rw [hstep, List.count_cons_of_ne hsx]
          rw [List.mem_cons]
          simp only [hsx, false_or]
          rw [hdups_xs, List.filterMap_cons] at ihs
          by_cases hn1 : n = 1
          · rw [if_pos hn1] at ihs
            exact ihs
          · rw [if_neg hn1] at ihs
            rw [List.mem_cons] at ihs
            simp only [hsx, false_or] at ihs
            exact ihs
      · have hxnot : x ∉ xs := by
          intro hmem
          rw [hxs] at hmem
          rcases List.mem_cons.mp hmem with heq | hmem'
          · exact hxy heq
          · have h1 : x ≤ y := hx y (by rw [hxs]; exact List.mem_cons_self _ _)
            have h2 : y ≤ x := List.rel_of_sorted_cons (hxs ▸ hs') x hmem'
            exact hxy (le_antisymm h1 h2)
        have hd2 : dedupWithCount (x :: xs) = (1, x) :: (n, y) :: rest := by
          simp [dedupWithCount, h, hxy]
        have hstep : dupsOf (x :: xs) = dupsOf xs := by
          rw [dupsOf, hd2, List.filterMap_cons, if_pos rfl, hdups_xs]
        rw [hstep]
        by_cases hsx : s = x
        · subst hsx
          have hc0 : xs.count s = 0 := List.count_eq_zero.mpr hxnot
          rw [List.count_cons_self, hc0]
          simp only [Nat.zero_add]
          constructor
          · intro hmem
            have := ihs.mp hmem
            omega
          · omega
        · rw [List.count_cons_of_ne hsx]
          exact ihs

/-- The kept duplicates form a sublist of the group representatives. -/
theorem filterMap_dups_sublist (gs : List (Nat × String)) :
    List.Sublist (gs.filterMap (fun p => if p.1 = 1 then none else some p.2))
      (gs.map (fun p => p.2)) := by
  induction gs with
  | nil => simp
  | cons p gs ih =>
    rw [List.filterMap_cons, List.map_cons]
    by_cases h1 : p.1 = 1
    · rw [if_pos h1]
      exact ih.cons p.2
    · rw [if_neg h1]
      exact ih.cons₂ p.2

/-- A chain that is both nondecreasing and adjacent-distinct is strictly
increasing. -/
theorem chain'_lt_of_le_ne (l : List String)
    (h1 : List.Chain' (· ≤ ·) l) (h2 : List.Chain' (· ≠ ·) l) :
    List.Chain' (· < ·) l := by
  induction l with
  | nil => simp
  | cons x xs ih =>
    cases xs with
    | nil => simp
    | cons y t =>
      rw [List.chain'_cons] at h1 h2 ⊢
      exact ⟨lt_of_le_of_ne h1.1 h2.1, ih h1.2 h2.2⟩

/-- On a sorted list, the kept duplicates are sorted and duplicate-free. -/
theorem dupsOf_sorted_nodup (l : List String) (hs : l.Sorted (· ≤ ·)) :
    (dupsOf l).Sorted (· ≤ ·) ∧ (dupsOf l).Nodup := by
  have hsub1 : List.Sublist (dupsOf l) ((dedupWithCount l).map (fun p => p.2)) :=
    filterMap_dups_sublist (dedupWithCount l)
  have hsub2 : List.Sublist ((dedupWithCount l).map (fun p => p.2)) l :=
    dedupWithCount_snd_sublist l
  have hsorted_map : ((dedupWithCount l).map (fun p => p.2)).Sorted (· ≤ ·) :=
    hs.sublist hsub2
  have hchain_ne : List.Chain' (· ≠ ·) ((dedupWithCount l).map (fun p => p.2)) :=
    List.chain'_map_of_chain' (fun p : Nat × String => p.2) (fun _ _ hne => hne)
      (dedupWithCount_chain_ne l)
  have hlt := chain'_lt_of_le_ne _ hsorted_map.chain' hchain_ne
  have hnodup_map : ((dedupWithCount l).map (fun p => p.2)).Nodup :=
    (List.chain'_iff_pairwise.mp hlt).imp (fun hlt' => ne_of_lt hlt')
  exact ⟨hsorted_map.sublist hsub1, hnodup_map.sublist hsub1⟩

/-- C10: `Links::try_from` fails exactly when some slot name occurs more
than once in the link list; on failure the error names every duplicated
slot, each once, in sorted order; on success the link list and its order
are returned unchanged. -/
theorem c10_links_try_from (links : List Link) :
    (Links.try_from links = .ok ⟨links⟩ ↔ (links.map (fun l => l.slot)).Nodup) ∧
    ((∃ ds, Links.try_from links = .error (.Duplicates ds)) ↔
      ¬ (links.map (fun l => l.slot)).Nodup) ∧
    (∀ ds, Links.try_from links = .error (.Duplicates ds) →
      (∀ s, s ∈ ds ↔ 2 ≤ (links.map (fun l => l.slot)).count s) ∧
      ds.Sorted (· ≤ ·) ∧ ds.Nodup) := by
  have hsort : (List.insertionSort (fun a b : String => a ≤ b)
      (links.map (fun l => l.slot))).Sorted (· ≤ ·) :=
    List.sorted_insertionSort _ _
  have hperm : List.Perm (List.insertionSort (fun a b : String => a ≤ b)
      (links.map (fun l => l.slot))) (links.map (fun l => l.slot)) :=
    List.perm_insertionSort _ _
  have hmem : ∀ s, s ∈ dupsOf (List.insertionSort (fun a b : String => a ≤ b)
      (links.map (fun l => l.slot))) ↔ 2 ≤ (links.map (fun l => l.slot)).count s := by
    intro s
    rw [mem_dupsOf_iff _ hsort s, hperm.count_eq s]
  have hkey : dupsOf (List.insertionSort (fun a b : String => a ≤ b)
      (links.map (fun l => l.slot))) = [] ↔ (links.map (fun l => l.slot)).Nodup := by
    constructor
    · intro h
      rw [List.nodup_iff_count_le_one]
      intro a
      by_contra hc
      have h2 : 2 ≤ (links.map (fun l => l.slot)).count a := by omega
      have hthis := (hmem a).mpr h2
      rw [h] at hthis
      exact List.not_mem_nil a hthis
    · intro h
      rw [List.eq_nil_iff_forall_not_mem]
      intro s hsmem
      have h2 := (hmem s).mp hsmem
      have hle := List.nodup_iff_count_le_one.mp h s
      omega
  by_cases hd : dupsOf (List.insertionSort (fun a b : String => a ≤ b)
      (links.map (fun l => l.slot))) = []
  · have hok : Links.try_from links = .ok ⟨links⟩ := by
      simp only [Links.try_from, hd]
      rfl
    refine ⟨?_, ?_, ?_⟩
    · simp only [hok, true_iff]
      exact hkey.mp hd
    · constructor
      · rintro ⟨ds, hds⟩
        rw [hok] at hds
        exact Except.noConfusion hds
      · intro hn
        exact absurd (hkey.mp hd) hn
    · intro ds hds
      rw [hok] at hds
      exact Except.noConfusion hds
  · have herr : Links.try_from links = .error (.Duplicates
        (dupsOf (List.insertionSort (fun a b : String => a ≤ b)
          (links.map (fun l => l.slot))))) := by
      simp only [Links.try_from]
      rw [if_neg (by simpa [List.isEmpty_iff] using hd)]
    have hnotnodup : ¬ (links.map (fun l => l.slot)).Nodup := fun hn =>
      hd (hkey.mpr hn)
    refine ⟨?_, ?_, ?_⟩
    · rw [herr]
      constructor
      · intro hcontra
        exact Except.noConfusion hcontra
      · intro hn
        exact absurd hn hnotnodup
    · exact ⟨fun _ => hnotnodup, fun _ => ⟨_, herr⟩⟩
    · intro ds hds
      rw [herr] at hds
      injection hds with h1
      injection h1 with h2
      subst h2
      obtain ⟨hsorted, hnodup⟩ := dupsOf_sorted_nodup _ hsort
      exact ⟨hmem, hsorted, hnodup⟩
